import Mathlib

/-
Verification development for the giskard desktop sidecar supervisor and
command-dispatch gateway (src/giskard-desktop/src-tauri/src/lib.rs).

The Rust source is shallowly embedded below.  Strings are modelled as
List Char, Rust Option as Lean Option, fallible functions as Except.
Every definition is translated from the source; the one exception is the
clearly marked spec-side definition categoriesSetJson, which follows the
spec text so that it can be compared with the source behaviour.
-/

/-! ### A JSON validity checker

Well-formedness of the request bodies is judged by a character-driven
pushdown automaton accepting exactly the JSON grammar of RFC 8259:
values are objects, arrays, strings, numbers, true, false, null;
strings may not contain raw control characters; escape sequences are
the eight named ones plus a backslash-u escape followed by four hex digits. -/

/-- Structural frames: the automaton is inside an array or an object. -/
inductive Frame where
  | arr
  | obj
deriving DecidableEq, Repr

/-- Sub-state while scanning a JSON string literal: normal characters,
just after a backslash, or inside a backslash-u escape with 4/3/2/1 hex
digits still expected. -/
inductive StrSub where
  | norm
  | esc
  | hex4
  | hex3
  | hex2
  | hex1
deriving DecidableEq, Repr

/-- Automaton mode. -/
inductive Mode where
  | value
  | arrFirst
  | objFirst
  | objKey
  | keyStr (sub : StrSub)
  | afterKey
  | valStr (sub : StrSub)
  | afterVal
  | lit (rest : List Char)
  | numNeg
  | numZero
  | numInt
  | numDot
  | numFrac
  | numE
  | numESign
  | numExp
deriving DecidableEq, Repr

/-- Full automaton state: a mode plus the stack of open containers. -/
structure PState where
  mode : Mode
  stack : List Frame
deriving DecidableEq, Repr

/-- JSON insignificant whitespace. -/
def isJsonWs (c : Char) : Bool :=
  c = ' ' || c = '\t' || c = '\n' || c = '\r'

/-- Hexadecimal digit. -/
def isHexDigit (c : Char) : Bool :=
  ('0' ≤ c && c ≤ '9') || ('a' ≤ c && c ≤ 'f') || ('A' ≤ c && c ≤ 'F')

/-- Decimal digit. -/
def isDigit (c : Char) : Bool :=
  '0' ≤ c && c ≤ '9'

/-- One character of a JSON string literal, given the current sub-state.
none is a syntax error, some none ends the string (unescaped quote),
some (some s) continues in sub-state s. -/
def strStep : StrSub → Char → Option (Option StrSub)
  | .norm, c =>
    if c = '"' then some none
    else if c = '\\' then some (some .esc)
    else if c.toNat < 32 then none
    else some (some .norm)
  | .esc, c =>
    if c = '"' || c = '\\' || c = '/' || c = 'b' || c = 'f' || c = 'n' || c = 'r' || c = 't' then
      some (some .norm)
    else if c = 'u' then some (some .hex4)
    else none
  | .hex4, c => if isHexDigit c then some (some .hex3) else none
  | .hex3, c => if isHexDigit c then some (some .hex2) else none
  | .hex2, c => if isHexDigit c then some (some .hex1) else none
  | .hex1, c => if isHexDigit c then some (some .norm) else none

/-- Dispatch on the first character of a JSON value (whitespace handled
by the caller). -/
def valueStartCore (st : List Frame) (c : Char) : Option PState :=
  if c = '"' then some ⟨.valStr .norm, st⟩
  else if c = '\x7b' then some ⟨.objFirst, .obj :: st⟩
  else if c = '[' then some ⟨.arrFirst, .arr :: st⟩
  else if c = 't' then some ⟨.lit ['r', 'u', 'e'], st⟩
  else if c = 'f' then some ⟨.lit ['a', 'l', 's', 'e'], st⟩
  else if c = 'n' then some ⟨.lit ['u', 'l', 'l'], st⟩
  else if c = '-' then some ⟨.numNeg, st⟩
  else if c = '0' then some ⟨.numZero, st⟩
  else if '1' ≤ c && c ≤ '9' then some ⟨.numInt, st⟩
  else none

/-- After a complete value: whitespace, or a separator or closer matching
the innermost open container. -/
def closeValue (st : List Frame) (c : Char) : Option PState :=
  if isJsonWs c then some ⟨.afterVal, st⟩
  else
    match st with
    | .arr :: rest =>
      if c = ',' then some ⟨.value, .arr :: rest⟩
      else if c = ']' then some ⟨.afterVal, rest⟩
      else none
    | .obj :: rest =>
      if c = ',' then some ⟨.objKey, .obj :: rest⟩
      else if c = '\x7d' then some ⟨.afterVal, rest⟩
      else none
    | [] => none

/-- One transition of the JSON automaton. -/
def step (p : PState) (c : Char) : Option PState :=
  match p.mode with
  | .value =>
    if isJsonWs c then some ⟨.value, p.stack⟩ else valueStartCore p.stack c
  | .arrFirst =>
    if isJsonWs c then some ⟨.arrFirst, p.stack⟩
    else if c = ']' then
      match p.stack with
      | .arr :: rest => some ⟨.afterVal, rest⟩
      | _ => none
    else valueStartCore p.stack c
  | .objFirst =>
    if isJsonWs c then some ⟨.objFirst, p.stack⟩
    else if c = '"' then some ⟨.keyStr .norm, p.stack⟩
    else if c = '\x7d' then
      match p.stack with
      | .obj :: rest => some ⟨.afterVal, rest⟩
      | _ => none
    else none
  | .objKey =>
    if isJsonWs c then some ⟨.objKey, p.stack⟩
    else if c = '"' then some ⟨.keyStr .norm, p.stack⟩
    else none
  | .keyStr sub =>
    (strStep sub c).map fun r =>
      match r with
      | none => ⟨.afterKey, p.stack⟩
      | some sub' => ⟨.keyStr sub', p.stack⟩
  | .afterKey =>
    if isJsonWs c then some ⟨.afterKey, p.stack⟩
    else if c = ':' then some ⟨.value, p.stack⟩
    else none
  | .valStr sub =>
    (strStep sub c).map fun r =>
      match r with
      | none => ⟨.afterVal, p.stack⟩
      | some sub' => ⟨.valStr sub', p.stack⟩
  | .afterVal => closeValue p.stack c
  | .lit rest =>
    match rest with
    | [] => none
    | r :: rs =>
      if c = r then
        if rs.isEmpty then some ⟨.afterVal, p.stack⟩ else some ⟨.lit rs, p.stack⟩
      else none
  | .numNeg =>
    if c = '0' then some ⟨.numZero, p.stack⟩
    else if '1' ≤ c && c ≤ '9' then some ⟨.numInt, p.stack⟩
    else none
  | .numZero =>
    if c = '.' then some ⟨.numDot, p.stack⟩
    else if c = 'e' || c = 'E' then some ⟨.numE, p.stack⟩
    else closeValue p.stack c
  | .numInt =>
    if isDigit c then some ⟨.numInt, p.stack⟩
    else if c = '.' then some ⟨.numDot, p.stack⟩
    else if c = 'e' || c = 'E' then some ⟨.numE, p.stack⟩
    else closeValue p.stack c
  | .numDot =>
    if isDigit c then some ⟨.numFrac, p.stack⟩ else none
  | .numFrac =>
    if isDigit c then some ⟨.numFrac, p.stack⟩
    else if c = 'e' || c = 'E' then some ⟨.numE, p.stack⟩
    else closeValue p.stack c
  | .numE =>
    if isDigit c then some ⟨.numExp, p.stack⟩
    else if c = '+' || c = '-' then some ⟨.numESign, p.stack⟩
    else none
  | .numESign =>
    if isDigit c then some ⟨.numExp, p.stack⟩ else none
  | .numExp =>
    if isDigit c then some ⟨.numExp, p.stack⟩ else closeValue p.stack c

/-- Run the automaton over a character list. -/
def runPDA (p : PState) : List Char → Option PState
  | [] => some p
  | c :: rest =>
    match step p c with
    | some q => runPDA q rest
    | none => none

/-- Accepting states: a complete value with nothing left open. -/
def acceptState (p : PState) : Bool :=
  p.stack.isEmpty &&
    (match p.mode with
     | .afterVal => true
     | .numZero => true
     | .numInt => true
     | .numFrac => true
     | .numExp => true
     | _ => false)

/-- A character list is well-formed JSON when the automaton accepts it. -/
def isValidJson (l : List Char) : Bool :=
  match runPDA ⟨.value, []⟩ l with
  | some p => acceptState p
  | none => false

/-! ### Command Gateway: request serialization

Models of the string building in api_create_task (lib.rs lines 33-53)
and api_update_task_status (lib.rs lines 80-92). -/

/-- Model of the Rust expression s.replace of a quote by backslash-quote
(lib.rs lines 37, 38, 41, 83): each quote character becomes a backslash
followed by a quote, every other character is kept. -/
def escQuote (c : Char) : List Char :=
  if c = '"' then ['\\', '"'] else [c]

/-- Quote-escaping applied to a whole string. -/
def escapeQuotes : List Char → List Char
  | [] => []
  | c :: rest => escQuote c ++ escapeQuotes rest

/-- Lowercase hexadecimal digit for a value below 16 (0 otherwise). -/
def hexDigitChar : Nat → Char
  | 0 => '0'
  | 1 => '1'
  | 2 => '2'
  | 3 => '3'
  | 4 => '4'
  | 5 => '5'
  | 6 => '6'
  | 7 => '7'
  | 8 => '8'
  | 9 => '9'
  | 10 => 'a'
  | 11 => 'b'
  | 12 => 'c'
  | 13 => 'd'
  | 14 => 'e'
  | 15 => 'f'
  | _ => '0'

/-- serde_json escape of a control character with code n below 32:
the named escapes for backspace, tab, newline, form feed, carriage
return, and a backslash-u escape otherwise. -/
def serdeCtl (n : Nat) : List Char :=
  if n = 8 then ['\\', 'b']
  else if n = 9 then ['\\', 't']
  else if n = 10 then ['\\', 'n']
  else if n = 12 then ['\\', 'f']
  else if n = 13 then ['\\', 'r']
  else ['\\', 'u', '0', '0', hexDigitChar (n / 16), hexDigitChar (n % 16)]

/-- serde_json escaping of one character inside a string literal:
quote and backslash are escaped, control characters use serdeCtl,
everything else is emitted raw. -/
def serdeEscChar (c : Char) : List Char :=
  if c = '"' then ['\\', '"']
  else if c = '\\' then ['\\', '\\']
  else if c.toNat < 32 then serdeCtl c.toNat
  else [c]

/-- serde_json escaping applied to a whole string body. -/
def serdeContent : List Char → List Char
  | [] => []
  | c :: rest => serdeEscChar c ++ serdeContent rest

/-- serde_json serialization of one string. -/
def serdeStr (l : List Char) : List Char :=
  '"' :: (serdeContent l ++ ['"'])

/-- Comma-prefixed continuation of a serialized string array. -/
def commaTail : List (List Char) → List Char
  | [] => []
  | t :: ts => ',' :: (serdeStr t ++ commaTail ts)

/-- serde_json serialization of a vector of strings
(lib.rs line 47: serde_json to_string of the categories vector). -/
def serdeArr : List (List Char) → List Char
  | [] => ['[', ']']
  | t :: ts => '[' :: (serdeStr t ++ (commaTail ts ++ [']']))

/-- Model of the Rust split on a comma character (lib.rs line 46):
an empty input yields one empty token, and every comma starts a new
token, so empty and duplicate tokens are preserved. -/
def splitComma : List Char → List (List Char)
  | [] => [[]]
  | c :: rest =>
    if c = ',' then [] :: splitComma rest
    else
      match splitComma rest with
      | [] => [[c]]
      | t :: ts => (c :: t) :: ts

/-- The Unicode White_Space property, as used by the Rust trim method. -/
def isRustWs (c : Char) : Bool :=
  let n := c.toNat
  n = 0x9 || n = 0xA || n = 0xB || n = 0xC || n = 0xD || n = 0x20 ||
    n = 0x85 || n = 0xA0 || n = 0x1680 || (0x2000 ≤ n && n ≤ 0x200A) ||
    n = 0x2028 || n = 0x2029 || n = 0x202F || n = 0x205F || n = 0x3000

/-- Model of the Rust trim method: drop leading and trailing whitespace. -/
def trimChars (l : List Char) : List Char :=
  ((l.dropWhile isRustWs).reverse.dropWhile isRustWs).reverse

/-- lib.rs line 46: split the categories argument at commas and trim
each token. -/
def splitTrim (l : List Char) : List (List Char) :=
  (splitComma l).map trimChars

/-- lib.rs lines 44-51: the JSON value stored under the categories key.
A present argument is split, trimmed, and serialized by serde_json;
an absent argument yields the literal empty array. -/
def categoriesJson : Option (List Char) → List Char
  | some cats => serdeArr (splitTrim cats)
  | none => ['[', ']']

/-- Modelled from the spec words (section 4.5): categories as a
deduplicated set of trimmed tokens, serialized as a JSON array.
Spec-side definition, to be compared with categoriesJson. -/
def categoriesSetJson (cats : List Char) : List Char :=
  serdeArr ((splitTrim cats).dedup)

/-- lib.rs lines 40-42: the optional project segment of the create body,
with the project value quote-escaped; absent project adds nothing. -/
def projectSeg : Option (List Char) → List Char
  | some p => (", \"project\": \"").data ++ (escapeQuotes p ++ ['"'])
  | none => []

/-- lib.rs lines 36-53: the JSON request body built by api_create_task.
The literal segments come from the format strings; title, description
and a present project value are quote-escaped; the categories value is
produced by categoriesJson. -/
def api_create_task_body (title description : List Char)
    (project categories : Option (List Char)) : List Char :=
  ("\x7b\"title\": \"").data ++ (escapeQuotes title ++
    (("\", \"description\": \"").data ++ (escapeQuotes description ++ (['"'] ++
    (projectSeg project ++
    ((", \"categories\": ").data ++ (categoriesJson categories ++ ['\x7d'])))))))

/-- lib.rs line 83: the JSON request body built by api_update_task_status,
with the status value quote-escaped. -/
def api_update_task_status_body (status : List Char) : List Char :=
  ("\x7b\"status\": \"").data ++ (escapeQuotes status ++ ("\"\x7d").data)

/-- lib.rs line 88: the request URL of api_update_task_status, with the
task id rendered in decimal inside the path. -/
def api_update_task_status_url (task_id : Nat) : String :=
  ("http://localhost:5001/api/tasks/") ++ Nat.repr task_id ++ ("/status")

/-- Plain text characters: no backslash and no control character.
Quote characters are allowed, since the gateway escapes them. -/
def plainChar (c : Char) : Prop :=
  c ≠ '\\' ∧ 32 ≤ c.toNat

/-- A string all of whose characters are plain. -/
def plainText (l : List Char) : Prop :=
  ∀ c ∈ l, plainChar c

instance (c : Char) : Decidable (plainChar c) := by
  unfold plainChar
  infer_instance

instance (l : List Char) : Decidable (plainText l) := by
  unfold plainText
  infer_instance

/-! ### Process Supervisor: the shared backend handle

lib.rs line 6 declares a process-global mutex holding an optional child
handle.  The operations that touch it are modelled as a transition
system.  The store on line 174 (start_python_backend succeeding) and the
take-and-kill on lines 227-232 (the window close handler) are the only
writers.  start_python_backend is both run once by the setup thread
(line 198) and registered as a UI-invokable command (line 187), so a run
of the application produces some finite sequence of these operations. -/

/-- Operations on the shared handle slot: a successful spawn (path found
and process started, lib.rs lines 165-174), a failed spawn attempt
(early return before the store), and the close-handler terminate. -/
inductive SupOp where
  | spawnOk
  | spawnFail
  | terminate
deriving DecidableEq, Repr

/-- Supervisor state.  slot is the mutex content; live lists the ids of
processes spawned and not yet killed (ghost state tracking the child
processes themselves); nextId is the next fresh process id; kills counts
kill signals sent; overwrote records whether a store ever replaced a
handle of a still-live process. -/
structure SupState where
  slot : Option Nat
  live : List Nat
  nextId : Nat
  kills : Nat
  overwrote : Bool
deriving DecidableEq, Repr

/-- Initial state: mutex holds none (lib.rs line 6). -/
def SupState.init : SupState :=
  ⟨none, [], 0, 0, false⟩

/-- One supervisor operation.  spawnOk stores a fresh handle (lib.rs
line 174), leaving any previously stored handle live but untracked;
spawnFail returns early without touching the slot; terminate takes the
stored handle and kills it when present (lib.rs lines 227-232). -/
def supStep (s : SupState) : SupOp → SupState
  | .spawnOk =>
    { s with
      slot := some s.nextId
      live := s.nextId :: s.live
      nextId := s.nextId + 1
      overwrote := s.overwrote ||
        (match s.slot with
         | some h => s.live.contains h
         | none => false) }
  | .spawnFail => s
  | .terminate =>
    match s.slot with
    | some h => { s with slot := none, live := s.live.erase h, kills := s.kills + 1 }
    | none => s

/-- Run a sequence of supervisor operations from the initial state. -/
def supRun (ops : List SupOp) : SupState :=
  ops.foldl supStep SupState.init

/-- States reachable without a double spawn: the overwrite flag is
clear, and the slot and the live list agree, holding nothing or
exactly one handle. -/
def GoodSup (s : SupState) : Prop :=
  s.overwrote = false ∧
    ((s.slot = none ∧ s.live = []) ∨ ∃ h, s.slot = some h ∧ s.live = [h])

/-! ### Lifecycle Coordinator: the startup probe loop

lib.rs lines 192-220: the setup hook starts a background thread which
calls start_python_backend, logging either outcome, and then -- with no
conditional on the spawn result -- runs the health probe loop
for i in 1..=10, breaking at the first healthy probe. -/

/-- The fixed retry bound of the probe loop (lib.rs line 204). -/
def MAX_ATTEMPTS : Nat := 10

/-- The probe loop from attempt index i with the given fuel remaining.
healthy i is the outcome check_backend_status would report on the
attempt at second i.  Returns the number of probes performed and
whether the backend was seen healthy. -/
def probeFrom (healthy : Nat → Bool) : Nat → Nat → Nat × Bool
  | i, 0 => (i - 1, false)
  | i, fuel + 1 =>
    if healthy i then (i, true) else probeFrom healthy (i + 1) fuel

/-- The startup probe loop, lib.rs lines 204-219. -/
def probeLoop (healthy : Nat → Bool) : Nat × Bool :=
  probeFrom healthy 1 MAX_ATTEMPTS

/-- Observable outcome of one startup run of the background thread. -/
structure CoordOutcome where
  spawnErrLogged : Bool
  probes : Nat
  ready : Bool
deriving DecidableEq, Repr

/-- lib.rs lines 194-220: the startup thread.  The spawn result is only
matched for logging (lines 198-201); the probe loop runs afterwards in
either case. -/
def coordinatorRun (spawnOk : Bool) (healthy : Nat → Bool) : CoordOutcome :=
  ⟨!spawnOk, (probeLoop healthy).1, (probeLoop healthy).2⟩

/-! ### Path Resolver

lib.rs lines 132-159.  Paths are modelled by an absolute flag and a
component list; parent drops the last component and is undefined on a
root or empty path, matching the Rust Path parent method. -/

/-- A filesystem path: absolute flag plus components. -/
structure RPath where
  absolute : Bool
  comps : List String
deriving DecidableEq, Repr

/-- Rust Path parent: none for a root or empty path, otherwise the path
without its last component. -/
def RPath.parent (p : RPath) : Option RPath :=
  match p.comps with
  | [] => none
  | _ => some ⟨p.absolute, p.comps.dropLast⟩

/-- Rust Path join with one component. -/
def RPath.join (p : RPath) (s : String) : RPath :=
  ⟨p.absolute, p.comps ++ [s]⟩

/-- lib.rs lines 135-139: four chained parent calls on the executable
path.  A tree shallower than four levels yields none. -/
def parent4 (p : RPath) : Option RPath :=
  ((p.parent.bind RPath.parent).bind RPath.parent).bind RPath.parent

/-- lib.rs lines 144-149: the ordered candidate locations, relative to
the directory obtained by parent4.  The fifth-level parent is taken with
a fallback to the directory itself (unwrap_or, line 146). -/
def possiblePaths (parentDir : RPath) : List RPath :=
  [parentDir.join ("app.py"),
   (parentDir.parent.getD parentDir).join ("app.py"),
   ⟨false, ["..", "app.py"]⟩,
   ⟨false, ["..", "..", "app.py"]⟩]

/-- Error message of lib.rs line 139. -/
def errNoParent : String :=
  "Could not determine parent directory"

/-- Error message of lib.rs line 159 (contraction spelled out). -/
def errNotFound : String :=
  "Could not find app.py. Please ensure it is in the parent directory."

/-- lib.rs lines 132-159: resolve the backend entry point.  fs is the
filesystem existence predicate; exe the executable path.  The parent
chain is demanded up front with ok_or (line 139); only then are the
candidates tried in order, the first existing one winning (lines
151-159). -/
def resolveBackend (fs : RPath → Bool) (exe : RPath) : Except String RPath :=
  match parent4 exe with
  | none => .error errNoParent
  | some parentDir =>
    match (possiblePaths parentDir).find? fs with
    | some p => .ok p
    | none => .error errNotFound

/-! ### Lemmas about the JSON automaton -/

/-- Running the automaton over an appended list composes. -/
theorem runPDA_append (p : PState) (l1 l2 : List Char) :
    runPDA p (l1 ++ l2) = (runPDA p l1).bind fun q => runPDA q l2 := by
  induction l1 generalizing p with
  | nil => rfl
  | cons c rest ih =>
    show runPDA p (c :: (rest ++ l2)) = _
    cases hs : step p c with
    | none => simp only [runPDA, hs]; rfl
    | some q => simp only [runPDA, hs, ih]

/-- Composition through a known intermediate state. -/
theorem runPDA_append_some {p q : PState} {l1 : List Char} (l2 : List Char)
    (h : runPDA p l1 = some q) :
    runPDA p (l1 ++ l2) = runPDA q l2 := by
  rw [runPDA_append, h]
  rfl

/-- Quote-escaped plain text is consumed inside a string literal,
leaving the automaton where it started. -/
theorem runPDA_escapeQuotes (l : List Char) (hp : plainText l) (st : List Frame) :
    runPDA ⟨.valStr .norm, st⟩ (escapeQuotes l) = some ⟨.valStr .norm, st⟩ := by
  induction l with
  | nil => rfl
  | cons c rest ih =>
    have hc : plainChar c := hp c (List.mem_cons_self c rest)
    have hrest : plainText rest := fun x hx => hp x (List.mem_cons_of_mem c hx)
    by_cases hq : c = '"'
    · subst hq
      show runPDA ⟨.valStr .norm, st⟩ ('\\' :: '"' :: escapeQuotes rest) = _
      exact ih hrest
    · have h1 : escapeQuotes (c :: rest) = c :: escapeQuotes rest := by
        show escQuote c ++ escapeQuotes rest = _
        rw [escQuote, if_neg hq]
        rfl
      have hstep : step ⟨.valStr .norm, st⟩ c = some ⟨.valStr .norm, st⟩ := by
        show (strStep .norm c).map _ = _
        rw [strStep, if_neg hq, if_neg hc.1, if_neg (Nat.not_lt.mpr hc.2)]
        rfl
      rw [h1]
      show (match step ⟨.valStr .norm, st⟩ c with
            | some q => runPDA q (escapeQuotes rest)
            | none => none) = _
      rw [hstep]
      exact ih hrest

/-- hexDigitChar always yields a hexadecimal digit. -/
theorem isHexDigit_hexDigitChar : ∀ n, isHexDigit (hexDigitChar n) = true
  | 0 => rfl
  | 1 => rfl
  | 2 => rfl
  | 3 => rfl
  | 4 => rfl
  | 5 => rfl
  | 6 => rfl
  | 7 => rfl
  | 8 => rfl
  | 9 => rfl
  | 10 => rfl
  | 11 => rfl
  | 12 => rfl
  | 13 => rfl
  | 14 => rfl
  | 15 => rfl
  | (_ + 16) => rfl

/-- A serde control escape is consumed inside a string literal. -/
theorem runPDA_serdeCtl (st : List Frame) (n : Nat) :
    runPDA ⟨.valStr .norm, st⟩ (serdeCtl n) = some ⟨.valStr .norm, st⟩ := by
  have e1 := isHexDigit_hexDigitChar (n / 16)
  have e2 := isHexDigit_hexDigitChar (n % 16)
  by_cases h8 : n = 8
  · subst h8; rfl
  by_cases h9 : n = 9
  · subst h9; rfl
  by_cases h10 : n = 10
  · subst h10; rfl
  by_cases h12 : n = 12
  · subst h12; rfl
  by_cases h13 : n = 13
  · subst h13; rfl
  have hd : serdeCtl n =
      ['\\', 'u', '0', '0', hexDigitChar (n / 16), hexDigitChar (n % 16)] := by
    rw [serdeCtl, if_neg h8, if_neg h9, if_neg h10, if_neg h12, if_neg h13]
  rw [hd]
  show runPDA ⟨.valStr .hex2, st⟩
      (hexDigitChar (n / 16) :: hexDigitChar (n % 16) :: []) = _
  have s1 : step ⟨.valStr .hex2, st⟩ (hexDigitChar (n / 16)) =
      some ⟨.valStr .hex1, st⟩ := by
    show (strStep .hex2 _).map _ = _
    rw [strStep, if_pos e1]
    rfl
  have s2 : step ⟨.valStr .hex1, st⟩ (hexDigitChar (n % 16)) =
      some ⟨.valStr .norm, st⟩ := by
    show (strStep .hex1 _).map _ = _
    rw [strStep, if_pos e2]
    rfl
  show (match step ⟨.valStr .hex2, st⟩ (hexDigitChar (n / 16)) with
        | some q => runPDA q (hexDigitChar (n % 16) :: [])
        | none => none) = _
  rw [s1]
  show (match step ⟨.valStr .hex1, st⟩ (hexDigitChar (n % 16)) with
        | some q => runPDA q []
        | none => none) = _
  rw [s2]
  rfl

/-- One serde-escaped character is consumed inside a string literal. -/
theorem runPDA_serdeEscChar (st : List Frame) (c : Char) :
    runPDA ⟨.valStr .norm, st⟩ (serdeEscChar c) = some ⟨.valStr .norm, st⟩ := by
  by_cases hq : c = '"'
  · subst hq; rfl
  by_cases hb : c = '\\'
  · subst hb; rfl
  by_cases hctl : c.toNat < 32
  · have hd : serdeEscChar c = serdeCtl c.toNat := by
      rw [serdeEscChar, if_neg hq, if_neg hb, if_pos hctl]
    rw [hd]
    exact runPDA_serdeCtl st c.toNat
  · have hd : serdeEscChar c = [c] := by
      rw [serdeEscChar, if_neg hq, if_neg hb, if_neg hctl]
    have hstep : step ⟨.valStr .norm, st⟩ c = some ⟨.valStr .norm, st⟩ := by
      show (strStep .norm c).map _ = _
      rw [strStep, if_neg hq, if_neg hb, if_neg hctl]
      rfl
    rw [hd]
    show (match step ⟨.valStr .norm, st⟩ c with
          | some q => runPDA q []
          | none => none) = _
    rw [hstep]
    rfl

/-- serde-escaped content is consumed inside a string literal. -/
theorem runPDA_serdeContent (l : List Char) (st : List Frame) :
    runPDA ⟨.valStr .norm, st⟩ (serdeContent l) = some ⟨.valStr .norm, st⟩ := by
  induction l with
  | nil => rfl
  | cons c rest ih =>
    show runPDA _ (serdeEscChar c ++ serdeContent rest) = _
    rw [runPDA_append_some (serdeContent rest) (runPDA_serdeEscChar st c)]
    exact ih

/-- A serde string is one complete JSON value. -/
theorem runPDA_serdeStr_value (l : List Char) (st : List Frame) :
    runPDA ⟨.value, st⟩ (serdeStr l) = some ⟨.afterVal, st⟩ := by
  show runPDA ⟨.valStr .norm, st⟩ (serdeContent l ++ ['"']) = _
  rw [runPDA_append_some ['"'] (runPDA_serdeContent l st)]
  rfl

/-- A serde string read as the first array element. -/
theorem runPDA_serdeStr_arrFirst (l : List Char) (st : List Frame) :
    runPDA ⟨.arrFirst, st⟩ (serdeStr l) = some ⟨.afterVal, st⟩ := by
  show runPDA ⟨.valStr .norm, st⟩ (serdeContent l ++ ['"']) = _
  rw [runPDA_append_some ['"'] (runPDA_serdeContent l st)]
  rfl

/-- The comma-separated continuation of an array plus its closer. -/
theorem runPDA_commaTail (ts : List (List Char)) (st : List Frame) :
    runPDA ⟨.afterVal, .arr :: st⟩ (commaTail ts ++ [']']) = some ⟨.afterVal, st⟩ := by
  induction ts with
  | nil => rfl
  | cons t ts ih =>
    show runPDA ⟨.afterVal, .arr :: st⟩
        ((',' :: (serdeStr t ++ commaTail ts)) ++ [']']) = _
    have ha : (',' :: (serdeStr t ++ commaTail ts)) ++ [']'] =
        ',' :: (serdeStr t ++ (commaTail ts ++ [']'])) := by
      simp [List.append_assoc]
    rw [ha]
    show runPDA ⟨.value, .arr :: st⟩ (serdeStr t ++ (commaTail ts ++ [']'])) = _
    rw [runPDA_append_some (commaTail ts ++ [']'])
      (runPDA_serdeStr_value t (.arr :: st))]
    exact ih

/-- A serde string array is one complete JSON value. -/
theorem runPDA_serdeArr (ts : List (List Char)) (st : List Frame) :
    runPDA ⟨.value, st⟩ (serdeArr ts) = some ⟨.afterVal, st⟩ := by
  cases ts with
  | nil => rfl
  | cons t ts =>
    show runPDA ⟨.arrFirst, .arr :: st⟩ (serdeStr t ++ (commaTail ts ++ [']'])) = _
    rw [runPDA_append_some (commaTail ts ++ [']'])
      (runPDA_serdeStr_arrFirst t (.arr :: st))]
    exact runPDA_commaTail ts st

/-- The categories value is always one complete JSON value. -/
theorem runPDA_categoriesJson (c : Option (List Char)) (st : List Frame) :
    runPDA ⟨.value, st⟩ (categoriesJson c) = some ⟨.afterVal, st⟩ := by
  cases c with
  | none => rfl
  | some cats => exact runPDA_serdeArr (splitTrim cats) st

/-- The project segment runs from after-value back to after-value. -/
theorem runPDA_projectSeg (p : Option (List Char))
    (hp : ∀ x, p = some x → plainText x) :
    runPDA ⟨.afterVal, [.obj]⟩ (projectSeg p) = some ⟨.afterVal, [.obj]⟩ := by
  cases p with
  | none => rfl
  | some px =>
    have hx := hp px rfl
    show runPDA ⟨.afterVal, [.obj]⟩
        ((", \"project\": \"").data ++ (escapeQuotes px ++ ['"'])) = _
    rw [runPDA_append_some _ (rfl : runPDA ⟨.afterVal, [.obj]⟩
      ((", \"project\": \"").data) = some ⟨.valStr .norm, [.obj]⟩)]
    rw [runPDA_append_some _ (runPDA_escapeQuotes px hx [.obj])]
    rfl

/-- The create-task body is well-formed JSON whenever title, description
and a present project value contain no backslash and no control
character; categories is unrestricted, since serde escapes it fully. -/
theorem api_create_task_body_valid (t d : List Char) (p c : Option (List Char))
    (ht : plainText t) (hd : plainText d) (hp : ∀ x, p = some x → plainText x) :
    isValidJson (api_create_task_body t d p c) = true := by
  have hrun : runPDA ⟨.value, []⟩ (api_create_task_body t d p c) =
      some ⟨.afterVal, []⟩ := by
    unfold api_create_task_body
    rw [runPDA_append_some _ (rfl : runPDA ⟨.value, []⟩
      (("\x7b\"title\": \"").data) = some ⟨.valStr .norm, [.obj]⟩)]
    rw [runPDA_append_some _ (runPDA_escapeQuotes t ht [.obj])]
    rw [runPDA_append_some _ (rfl : runPDA ⟨.valStr .norm, [.obj]⟩
      (("\", \"description\": \"").data) = some ⟨.valStr .norm, [.obj]⟩)]
    rw [runPDA_append_some _ (runPDA_escapeQuotes d hd [.obj])]
    rw [runPDA_append_some _ (rfl : runPDA ⟨.valStr .norm, [.obj]⟩
      ['"'] = some ⟨.afterVal, [.obj]⟩)]
    rw [runPDA_append_some _ (runPDA_projectSeg p hp)]
    rw [runPDA_append_some _ (rfl : runPDA ⟨.afterVal, [.obj]⟩
      ((", \"categories\": ").data) = some ⟨.value, [.obj]⟩)]
    rw [runPDA_append_some _ (runPDA_categoriesJson c [.obj])]
    rfl
  unfold isValidJson
  rw [hrun]
  rfl

/-- The update-status body is well-formed JSON whenever the status value
contains no backslash and no control character. -/
theorem api_update_task_status_body_valid (s : List Char) (hs : plainText s) :
    isValidJson (api_update_task_status_body s) = true := by
  have hrun : runPDA ⟨.value, []⟩ (api_update_task_status_body s) =
      some ⟨.afterVal, []⟩ := by
    unfold api_update_task_status_body
    rw [runPDA_append_some _ (rfl : runPDA ⟨.value, []⟩
      (("\x7b\"status\": \"").data) = some ⟨.valStr .norm, [.obj]⟩)]
    rw [runPDA_append_some _ (runPDA_escapeQuotes s hs [.obj])]
    rfl
  unfold isValidJson
  rw [hrun]
  rfl

/-! ### Lemmas about the probe loop -/

/-- When no probe in the window succeeds, the loop runs its whole fuel
and reports the last attempted index with failure. -/
theorem probeFrom_never (h : Nat → Bool) (fuel : Nat) :
    ∀ i, (∀ j, i ≤ j → j < i + fuel → h j = false) →
    probeFrom h i fuel = (i + fuel - 1, false) := by
  induction fuel with
  | zero =>
    intro i _
    show (i - 1, false) = (i + 0 - 1, false)
    rfl
  | succ fuel ih =>
    intro i hall
    have h0 : ¬ (h i = true) := by
      rw [hall i (Nat.le_refl i) (by omega)]
      exact Bool.false_ne_true
    show (if h i = true then (i, true) else probeFrom h (i + 1) fuel) = _
    rw [if_neg h0, ih (i + 1) (fun j a b => hall j (by omega) (by omega))]
    have : i + 1 + fuel = i + (fuel + 1) := by omega
    rw [this]

/-- When the first success is at index K inside the window, the loop
stops there, having performed exactly K probes. -/
theorem probeFrom_first (h : Nat → Bool) (fuel : Nat) :
    ∀ i K, i ≤ K → K < i + fuel → (∀ j, i ≤ j → j < K → h j = false) →
    h K = true → probeFrom h i fuel = (K, true) := by
  induction fuel with
  | zero =>
    intro i K h1 h2 _ _
    omega
  | succ fuel ih =>
    intro i K h1 h2 hb hK
    by_cases hik : i = K
    · subst hik
      show (if h i = true then (i, true) else probeFrom h (i + 1) fuel) = _
      rw [if_pos hK]
    · have h0 : ¬ (h i = true) := by
        rw [hb i (Nat.le_refl i) (by omega)]
        exact Bool.false_ne_true
      show (if h i = true then (i, true) else probeFrom h (i + 1) fuel) = _
      rw [if_neg h0]
      exact ih (i + 1) K (by omega) (by omega) (fun j a b => hb j (by omega) b) hK

/-- The probe count reported by the loop is at least the start index
minus one. -/
theorem probeFrom_fst_ge (h : Nat → Bool) (fuel : Nat) :
    ∀ i, i - 1 ≤ (probeFrom h i fuel).1 := by
  induction fuel with
  | zero =>
    intro i
    exact Nat.le_refl _
  | succ fuel ih =>
    intro i
    show i - 1 ≤ (if h i = true then (i, true) else probeFrom h (i + 1) fuel).1
    by_cases hi : h i = true
    · rw [if_pos hi]
      omega
    · rw [if_neg hi]
      have := ih (i + 1)
      omega

/-- The startup loop always performs at least one probe. -/
theorem one_le_probeLoop_fst (h : Nat → Bool) : 1 ≤ (probeLoop h).1 := by
  show 1 ≤ (if h 1 = true then ((1 : Nat), true) else probeFrom h 2 9).1
  by_cases h1 : h 1 = true
  · rw [if_pos h1]
  · rw [if_neg h1]
    have := probeFrom_fst_ge h 9 2
    omega

/-! ### Lemmas about category splitting -/

/-- splitComma never produces an empty token list. -/
theorem splitComma_ne_nil : ∀ l : List Char, splitComma l ≠ [] := by
  intro l
  cases l with
  | nil => simp [splitComma]
  | cons c rest =>
    show (if c = ',' then [] :: splitComma rest
          else match splitComma rest with
               | [] => [[c]]
               | t :: ts => (c :: t) :: ts) ≠ []
    by_cases hc : c = ','
    · rw [if_pos hc]
      simp
    · rw [if_neg hc]
      cases hsp : splitComma rest with
      | nil => simp
      | cons t ts => simp

/-- The number of tokens is one more than the number of commas:
empty and duplicate tokens are always kept. -/
theorem splitComma_length : ∀ l : List Char, (splitComma l).length = l.count ',' + 1 := by
  intro l
  induction l with
  | nil => rfl
  | cons c rest ih =>
    by_cases hc : c = ','
    · subst hc
      show ([] :: splitComma rest).length = _
      rw [List.length_cons, ih, List.count_cons_self]
    · have h1 : splitComma (c :: rest) =
          match splitComma rest with
          | [] => [[c]]
          | t :: ts => (c :: t) :: ts := by
        show (if c = ',' then _ else _) = _
        rw [if_neg hc]
      rw [h1, List.count_cons_of_ne (Ne.symm hc)]
      cases hsp : splitComma rest with
      | nil => exact absurd hsp (splitComma_ne_nil rest)
      | cons t ts =>
        rw [hsp] at ih
        rw [List.length_cons]
        rw [List.length_cons] at ih
        exact ih

/-- splitTrim keeps exactly one token per comma-separated slot. -/
theorem splitTrim_length (l : List Char) :
    (splitTrim l).length = l.count ',' + 1 := by
  rw [splitTrim, List.length_map]
  exact splitComma_length l

/-! ### Lemmas about the supervisor transition system -/

/-- Folding the supervisor over any operation sequence with at most one
successful spawn in the remaining budget preserves GoodSup. -/
theorem supFold_good : ∀ (ops : List SupOp) (s : SupState), GoodSup s →
    s.live.length + ops.count SupOp.spawnOk ≤ 1 →
    GoodSup (ops.foldl supStep s) := by
  intro ops
  induction ops with
  | nil =>
    intro s hg _
    exact hg
  | cons op ops ih =>
    intro s hg hc
    show GoodSup (ops.foldl supStep (supStep s op))
    cases op with
    | spawnOk =>
      have hcount : (SupOp.spawnOk :: ops).count SupOp.spawnOk =
          ops.count SupOp.spawnOk + 1 := List.count_cons_self _ _
      rw [hcount] at hc
      have hlen : s.live.length = 0 := by omega
      have hlive : s.live = [] := List.length_eq_zero.mp hlen
      have hslot : s.slot = none := by
        rcases hg.2 with ⟨h1, _⟩ | ⟨hh, _, h2⟩
        · exact h1
        · rw [h2] at hlive
          exact absurd hlive (by simp)
      apply ih
      · constructor
        · show (s.overwrote ||
            (match s.slot with
             | some h => s.live.contains h
             | none => false)) = false
          rw [hslot, hg.1]
          rfl
        · refine Or.inr ⟨s.nextId, rfl, ?_⟩
          show s.nextId :: s.live = [s.nextId]
          rw [hlive]
      · show (s.nextId :: s.live).length + ops.count SupOp.spawnOk ≤ 1
        rw [hlive]
        simp only [List.length_cons, List.length_nil]
        omega
    | spawnFail =>
      have hcount : (SupOp.spawnFail :: ops).count SupOp.spawnOk =
          ops.count SupOp.spawnOk :=
        List.count_cons_of_ne (by simp) _
      rw [hcount] at hc
      exact ih s hg hc
    | terminate =>
      have hcount : (SupOp.terminate :: ops).count SupOp.spawnOk =
          ops.count SupOp.spawnOk :=
        List.count_cons_of_ne (by simp) _
      rw [hcount] at hc
      rcases hg.2 with ⟨h1, h2⟩ | ⟨hh, h1, h2⟩
      · have hstep : supStep s SupOp.terminate = s := by
          simp only [supStep, h1]
        rw [hstep]
        exact ih s hg hc
      · have hstep : supStep s SupOp.terminate =
            { s with slot := none, live := s.live.erase hh, kills := s.kills + 1 } := by
          simp only [supStep, h1]
        rw [hstep]
        apply ih
        · exact ⟨hg.1, Or.inl ⟨rfl, by rw [h2]; simp⟩⟩
        · show (s.live.erase hh).length + ops.count SupOp.spawnOk ≤ 1
          rw [h2] at hc ⊢
          simp only [List.length_cons, List.length_nil] at hc
          simp only [List.erase_cons_head, List.length_nil]
          omega

/-! ### The claims -/

/-- C1 counterexample: start_python_backend is UI-invokable (lib.rs line
187), so two successful spawns can occur in one run; the second store
overwrites a still-live handle and two spawned processes are live. -/
theorem C1_counterexample :
    (supRun [SupOp.spawnOk, SupOp.spawnOk]).overwrote = true ∧
    1 < (supRun [SupOp.spawnOk, SupOp.spawnOk]).live.length := by
  constructor
  · rfl
  · decide

/-- C1 (amended): in a run whose operation sequence contains at most one
successful spawn -- the automatic startup spawn, with no UI-triggered
restart -- the slot tracks at most one live process at every point and
no store ever overwrites a live handle. -/
theorem C1_at_most_one_live_handle (ops : List SupOp)
    (h : ops.count SupOp.spawnOk ≤ 1) :
    (supRun ops).live.length ≤ 1 ∧ (supRun ops).overwrote = false := by
  unfold supRun
  have hg := supFold_good ops SupState.init ⟨rfl, Or.inl ⟨rfl, rfl⟩⟩
    (by simpa [SupState.init] using h)
  refine ⟨?_, hg.1⟩
  rcases hg.2 with ⟨_, h2⟩ | ⟨hh, _, h2⟩ <;> rw [h2] <;> simp

/-- C1 witness: a spawn followed by the shutdown terminate. -/
theorem C1_witness :
    (supRun [SupOp.spawnOk, SupOp.terminate]).live.length ≤ 1 ∧
    (supRun [SupOp.spawnOk, SupOp.terminate]).overwrote = false :=
  C1_at_most_one_live_handle [SupOp.spawnOk, SupOp.terminate] (by decide)

/-- C2 counterexample: with a failed spawn and a backend that never
reports healthy, the startup thread still performs all MAX_ATTEMPTS
probes rather than zero. -/
theorem C2_counterexample :
    (coordinatorRun false (fun _ => false)).probes = MAX_ATTEMPTS ∧
    (coordinatorRun false (fun _ => false)).probes ≠ 0 := by
  constructor
  · rfl
  · decide

/-- C2 (amended): when spawning fails the coordinator logs the failure
but does not stop: it performs the same probe loop as on success (always
at least one probe), with identical probe count and readiness outcome. -/
theorem C2_spawn_failure_still_probes (healthy : Nat → Bool) :
    (coordinatorRun false healthy).probes = (coordinatorRun true healthy).probes ∧
    (coordinatorRun false healthy).ready = (coordinatorRun true healthy).ready ∧
    1 ≤ (coordinatorRun false healthy).probes :=
  ⟨rfl, rfl, one_le_probeLoop_fst healthy⟩

/-- C3 counterexample: an executable path with fewer than four parent
levels makes the resolver fail with the no-parent error even though the
relative fallback candidate exists on the filesystem; the remaining
candidates are never tried. -/
theorem C3_counterexample :
    resolveBackend (fun q => decide (q = ⟨false, ["..", "app.py"]⟩))
      ⟨true, ["a", "b"]⟩ = Except.error errNoParent ∧
    (fun q => decide (q = (⟨false, ["..", "app.py"]⟩ : RPath)))
      ⟨false, ["..", "app.py"]⟩ = true := by
  constructor
  · rfl
  · decide

/-- C3 (amended): when the executable path has at least four parent
levels, the resolver returns the first existing of the four candidate
locations, or the not-found error when none exists; when it has fewer,
it fails with the no-parent error without consulting the remaining
candidates. -/
theorem C3_resolver_behaviour (fs : RPath → Bool) (exe pd : RPath) :
    (parent4 exe = none → resolveBackend fs exe = Except.error errNoParent) ∧
    (parent4 exe = some pd →
      resolveBackend fs exe =
        match (possiblePaths pd).find? fs with
        | some q => Except.ok q
        | none => Except.error errNotFound) := by
  constructor <;> intro h <;> simp only [resolveBackend, h]

/-- C3 witness: a five-level executable path over an empty filesystem. -/
theorem C3_witness :
    resolveBackend (fun _ => false) ⟨true, ["a", "b", "c", "d", "e"]⟩ =
      Except.error errNotFound := by
  have h := (C3_resolver_behaviour (fun _ => false)
    ⟨true, ["a", "b", "c", "d", "e"]⟩ ⟨true, ["a"]⟩).2 rfl
  rw [h]
  rfl

/-- C4 counterexample: quote escaping alone does not keep the body
well-formed: a title consisting of one backslash yields a malformed
request body, the backslash swallowing the closing quote. -/
theorem C4_counterexample :
    isValidJson (api_create_task_body (("\\").data) (("x").data) none none) = false ∧
    api_create_task_body (("\\").data) (("x").data) none none =
      ("\x7b\"title\": \"\\\", \"description\": \"x\", \"categories\": []\x7d").data := by
  constructor
  · rfl
  · rfl

/-- C4 (amended): for free-text fields (title, description, project,
status) containing no backslash and no control character, the serialized
bodies of api_create_task and api_update_task_status are well-formed
JSON, quote characters in the fields being escaped; a field containing a
backslash can defeat this despite quote escaping. -/
theorem C4_escaped_body_wellformed (t d s : List Char)
    (p c : Option (List Char))
    (ht : plainText t) (hd : plainText d)
    (hp : ∀ x, p = some x → plainText x) (hs : plainText s) :
    isValidJson (api_create_task_body t d p c) = true ∧
    isValidJson (api_update_task_status_body s) = true :=
  ⟨api_create_task_body_valid t d p c ht hd hp,
   api_update_task_status_body_valid s hs⟩

/-- C4 witness: fields containing quote characters. -/
theorem C4_witness :
    isValidJson (api_create_task_body (("A \"B\"").data) (("x").data)
      (some (("p\"q").data)) (some (("work, urgent").data))) = true ∧
    isValidJson (api_update_task_status_body (("do\"ne").data)) = true :=
  C4_escaped_body_wellformed (("A \"B\"").data) (("x").data) (("do\"ne").data)
    (some (("p\"q").data)) (some (("work, urgent").data))
    (by decide) (by decide)
    (fun x hx => (Option.some_inj.mp hx) ▸ (by decide : plainText (("p\"q").data)))
    (by decide)

/-- C5 counterexample: the split keeps duplicate tokens, so the
serialized categories value differs from the serialization of the
deduplicated token set prescribed by the spec wording. -/
theorem C5_counterexample :
    categoriesJson (some (("a,a").data)) ≠ categoriesSetJson (("a,a").data) ∧
    categoriesJson (some (("a,a").data)) = ("[\"a\",\"a\"]").data ∧
    categoriesSetJson (("a,a").data) = ("[\"a\"]").data := by
  refine ⟨by decide, rfl, rfl⟩

/-- C5 (amended): a present comma-separated categories argument is split
into a list of trimmed tokens (duplicates preserved) serialized as a
JSON array, and an absent argument serializes as the empty array. -/
theorem C5_categories_list_serialization :
    categoriesJson (some (("work, urgent").data)) = ("[\"work\",\"urgent\"]").data ∧
    categoriesJson none = ("[]").data ∧
    (∀ s : List Char, categoriesJson (some s) = serdeArr (splitTrim s)) :=
  ⟨rfl, rfl, fun _ => rfl⟩

/-- C6: the create-item call with title Buy milk, description 2 percent,
no project and no categories produces exactly the documented body. -/
theorem C6_create_example :
    api_create_task_body (("Buy milk").data) (("2%").data) none none =
      ("\x7b\"title\": \"Buy milk\", \"description\": \"2%\", \"categories\": []\x7d").data :=
  rfl

/-- C7: the update-status call with id 7 and status done targets the
path /api/tasks/7/status with the documented body; in general the id is
interpolated into the path and the escaped status into the body. -/
theorem C7_update_status_request :
    api_update_task_status_url 7 = ("http://localhost:5001/api/tasks/7/status") ∧
    api_update_task_status_body (("done").data) = ("\x7b\"status\": \"done\"\x7d").data ∧
    (∀ id : Nat, api_update_task_status_url id =
      ("http://localhost:5001/api/tasks/") ++ Nat.repr id ++ ("/status")) ∧
    (∀ s : List Char, api_update_task_status_body s =
      ("\x7b\"status\": \"").data ++ (escapeQuotes s ++ ("\"\x7d").data)) := by
  refine ⟨by decide, rfl, fun _ => rfl, fun _ => rfl⟩

/-- C8: after a successful spawn the stored handle is non-empty; after
terminate it is empty; terminate with no handle present is a no-op that
performs no kill, and a second consecutive terminate changes nothing. -/
theorem C8_terminate_idempotent (s : SupState) :
    (supStep s SupOp.spawnOk).slot.isSome = true ∧
    (supStep s SupOp.terminate).slot = none ∧
    (s.slot = none → supStep s SupOp.terminate = s) ∧
    supStep (supStep s SupOp.terminate) SupOp.terminate = supStep s SupOp.terminate ∧
    (s.slot = none → (supStep s SupOp.terminate).kills = s.kills) := by
  have hterm : ∀ t : SupState, (supStep t SupOp.terminate).slot = none := by
    intro t
    cases hs : t.slot with
    | none => simp only [supStep, hs]
    | some h => simp only [supStep, hs]
  have hnoop : ∀ t : SupState, t.slot = none → supStep t SupOp.terminate = t := by
    intro t ht
    simp only [supStep, ht]
  refine ⟨rfl, hterm s, hnoop s, hnoop _ (hterm s), ?_⟩
  intro h
  rw [hnoop s h]

/-- C8 witness: terminate on the initial empty slot. -/
theorem C8_witness :
    supStep SupState.init SupOp.terminate = SupState.init ∧
    (supStep SupState.init SupOp.terminate).kills = SupState.init.kills :=
  ⟨(C8_terminate_idempotent SupState.init).2.2.1 rfl,
   (C8_terminate_idempotent SupState.init).2.2.2.2 rfl⟩

/-- C9: the startup loop performs exactly K probes and stops when the
backend first reports healthy at probe K below the bound, and performs
exactly MAX_ATTEMPTS probes without success when it never does. -/
theorem C9_probe_loop_counts (healthy : Nat → Bool) (K : Nat) :
    ((1 ≤ K ∧ K < MAX_ATTEMPTS ∧ (∀ i, 1 ≤ i → i < K → healthy i = false) ∧
        healthy K = true) →
      probeLoop healthy = (K, true)) ∧
    ((∀ i, 1 ≤ i → i ≤ MAX_ATTEMPTS → healthy i = false) →
      probeLoop healthy = (MAX_ATTEMPTS, false)) := by
  constructor
  · rintro ⟨h1, h2, hb, hK⟩
    have h2' : K < 10 := h2
    show probeFrom healthy 1 10 = (K, true)
    exact probeFrom_first healthy 10 1 K h1 (by omega) (fun j a b => hb j a b) hK
  · intro hall
    show probeFrom healthy 1 10 = (10, false)
    have h := probeFrom_never healthy 10 1
      (fun j a b => hall j a (by show j ≤ 10; omega))
    exact h

/-- C9 witness: first healthy at probe three, and never healthy. -/
theorem C9_witness :
    probeLoop (fun i => decide (3 ≤ i)) = (3, true) ∧
    probeLoop (fun _ => false) = (MAX_ATTEMPTS, false) := by
  constructor
  · exact (C9_probe_loop_counts (fun i => decide (3 ≤ i)) 3).1
      ⟨by omega, by decide, fun i a b => decide_eq_false (by omega), by decide⟩
  · exact (C9_probe_loop_counts (fun _ => false) 0).2 (fun i a b => rfl)

/-- C10: an empty categories argument serializes as a one-element array
holding the empty string, not as the empty array; in general splitting
keeps one token per comma-separated slot, so empty and duplicate tokens
are preserved and the result is a list, not a set. -/
theorem C10_empty_categories_token :
    categoriesJson (some (("").data)) = ("[\"\"]").data ∧
    ("[\"\"]").data ≠ ("[]").data ∧
    (∀ s : List Char, (splitTrim s).length = s.count ',' + 1) := by
  refine ⟨rfl, by decide, splitTrim_length⟩
